import Mathlib

/-!
Verification development for the rust-proxy-core crate: a shallow embedding of
the SSE stream transducer (`src/sse_processor.rs`) and of the WASM signing
bridge (`src/wasm_signer.rs`), together with theorems settling the frozen
claims about them.

Conventions of the embedding:
* Rust `String` / `&str` values are represented as `List Nat` of Unicode code
  points (`strLit` injects Lean string literals).
* Raw byte chunks (`Bytes`) are `List Nat` of bytes; `str::from_utf8` is
  modelled by `utf8DecodeCp`, which validates and decodes to code points.
* `SystemTime::now()` is abstracted by a caller-supplied clock applied to a
  tick counter threaded through the state.
* serde_json parsing of `action` / `sources` / `repoSources` payloads is
  external library code; it is abstracted as a record of parser functions
  (`JsonParsers`), so theorems quantify over the parser outcome.
-/

/-- Code points of a Lean string literal, used to write Rust string literals. -/
def strLit (s : String) : List Nat := s.data.map Char.toNat

/-- Decompose a buffer into its complete lines (the successive
`find('\n')` / `drain(..=newline_pos)` prefixes of the Rust loop, without
the terminating newline) and the remaining partial text after the last
newline. -/
def completeLines : List Nat → List (List Nat) × List Nat
  | [] => ([], [])
  | x :: xs =>
    if x = 10 then ([] :: (completeLines xs).1, (completeLines xs).2)
    else
      match completeLines xs with
      | ([], rem) => ([], x :: rem)
      | (l :: ls, rem) => ((x :: l) :: ls, rem)

/-- Rust `str::trim_end_matches(c)`: strip every trailing occurrence of `c`. -/
def trimEndMatches (c : Nat) (l : List Nat) : List Nat :=
  (l.reverse.dropWhile (fun x => x == c)).reverse

/-- Rust `str::split_once(c)`: split at the first occurrence of `c`. -/
def splitOnce (c : Nat) : List Nat → Option (List Nat × List Nat)
  | [] => none
  | x :: xs =>
    if x = c then some ([], xs)
    else (splitOnce c xs).map (fun p => (x :: p.1, p.2))

/-- Rust `str::strip_prefix(' ').unwrap_or(value)`: drop one leading space. -/
def stripOneSpace (l : List Nat) : List Nat :=
  match l with
  | 32 :: rest => rest
  | _ => l

/-- Rust `str::split(c)`: the list of parts between occurrences of `c`
(always non-empty). -/
def splitChar (c : Nat) : List Nat → List (List Nat)
  | [] => [[]]
  | x :: xs =>
    match splitChar c xs with
    | [] => [[x]]
    | h :: t => if x = c then [] :: h :: t else (x :: h) :: t

/-- Rust `Vec::join("\n")` on the pending data lines. -/
def joinNl (ls : List (List Nat)) : List Nat := List.intercalate [10] ls

/-- Rust `char::is_whitespace`: the Unicode White_Space code points. -/
def isRustWhitespace (c : Nat) : Bool :=
  c == 9 || c == 10 || c == 11 || c == 12 || c == 13 || c == 32 ||
  c == 0x85 || c == 0xA0 || c == 0x1680 ||
  (0x2000 ≤ c && c ≤ 0x200A) ||
  c == 0x2028 || c == 0x2029 || c == 0x202F || c == 0x205F || c == 0x3000

/-- Rust `str::trim()`: drop Unicode whitespace from both ends. -/
def rustTrim (l : List Nat) : List Nat :=
  ((l.dropWhile isRustWhitespace).reverse.dropWhile isRustWhitespace).reverse

/-- Rust `str::lines()`: split at `\n`, drop an optional final empty line
produced by a trailing `\n`, and strip one `\r` from the end of every line
that was terminated by a `\n`. -/
def rustLines (l : List Nat) : List (List Nat) :=
  if l = [] then []
  else
    let parts := splitChar 10 l
    let parts := if l.getLast? = some 10 then parts.dropLast else parts
    let n := parts.length
    parts.enum.map (fun p =>
      if p.1 + 1 < n ∨ l.getLast? = some 10 then
        match p.2.getLast? with
        | some 13 => p.2.dropLast
        | _ => p.2
      else p.2)

/-- Is `b` a UTF-8 continuation byte (`0x80..=0xBF`)? -/
def isCont (b : Nat) : Bool := 0x80 ≤ b && b ≤ 0xBF

/-- Model of `str::from_utf8` on a byte chunk: validate as UTF-8 and decode
to the list of code points; `none` is the `Utf8Error` case.  The branch
structure follows the UTF-8 well-formedness table (RFC 3629). -/
def utf8DecodeCp : List Nat → Option (List Nat)
  | [] => some []
  | b :: rest =>
    if b < 0x80 then (utf8DecodeCp rest).map (b :: ·)
    else if 0xC2 ≤ b ∧ b ≤ 0xDF then
      match rest with
      | b1 :: rest' =>
        if isCont b1 then
          (utf8DecodeCp rest').map (((b - 0xC0) * 64 + (b1 - 0x80)) :: ·)
        else none
      | [] => none
    else if 0xE0 ≤ b ∧ b ≤ 0xEF then
      match rest with
      | b1 :: b2 :: rest' =>
        let lo1 := if b = 0xE0 then 0xA0 else 0x80
        let hi1 := if b = 0xED then 0x9F else 0xBF
        if lo1 ≤ b1 ∧ b1 ≤ hi1 ∧ isCont b2 then
          (utf8DecodeCp rest').map
            (((b - 0xE0) * 4096 + (b1 - 0x80) * 64 + (b2 - 0x80)) :: ·)
        else none
      | _ => none
    else if 0xF0 ≤ b ∧ b ≤ 0xF4 then
      match rest with
      | b1 :: b2 :: b3 :: rest' =>
        let lo1 := if b = 0xF0 then 0x90 else 0x80
        let hi1 := if b = 0xF4 then 0x8F else 0xBF
        if lo1 ≤ b1 ∧ b1 ≤ hi1 ∧ isCont b2 ∧ isCont b3 then
          (utf8DecodeCp rest').map
            (((b - 0xF0) * 262144 + (b1 - 0x80) * 4096 +
              (b2 - 0x80) * 64 + (b3 - 0x80)) :: ·)
        else none
      | _ => none
    else none

/-! ## Data model of `sse_processor.rs` -/

/-- Minimal model of a `serde_json::Value` (only its shape matters here). -/
inductive JsonValue where
  | null : JsonValue
  | bool (b : Bool) : JsonValue
  | num (n : Int) : JsonValue
  | str (s : List Nat) : JsonValue
  | arr (xs : List JsonValue) : JsonValue
  | obj (fields : List (List Nat × JsonValue)) : JsonValue

/-- `DevAction`: an action record with an integer `type` plus captured
unknown fields. -/
structure DevAction where
  action_type : Nat
  extra : JsonValue

/-- `DevSource`: a source record. -/
structure DevSource where
  title : Option (List Nat)
  url : Option (List Nat)
  extra : JsonValue

/-- `DevGithubSource`: a GitHub source record. -/
structure DevGithubSource where
  repo : Option (List Nat)
  file_path : Option (List Nat)
  extra : JsonValue

/-- `SseAccumulator`: the per-stream mutable aggregate. -/
structure SseAccumulator where
  text : List Nat
  actions : List DevAction
  sources : List DevSource
  github_sources : List DevGithubSource
  related_questions : List (List Nat)
  related_questions_raw : List Nat
  thread_id : Option (List Nat)
  query_message_id : Option (List Nat)
  answer_message_id : Option (List Nat)
  thread_title : Option (List Nat)
  reasoning : Option (List Nat)
  is_finished : Bool
  error : Option (List Nat)

/-- `SseAccumulator::default()`. -/
def SseAccumulator.default : SseAccumulator :=
  ⟨[], [], [], [], [], [], none, none, none, none, none, false, none⟩

/-- `SseAccumulator::update_related_questions`: split the raw newline-joined
string on `\n`, trim each piece, drop empties. -/
def SseAccumulator.update_related_questions (a : SseAccumulator) : SseAccumulator :=
  { a with related_questions :=
      ((splitChar 10 a.related_questions_raw).map rustTrim).filter (· ≠ []) }

/-- `Delta` of an OpenAI chat-completion chunk choice. -/
structure Delta where
  role : Option (List Nat)
  content : Option (List Nat)
deriving DecidableEq

/-- `Choice` of an OpenAI chat-completion chunk. -/
structure Choice where
  index : Nat
  delta : Delta
  finish_reason : Option (List Nat)
deriving DecidableEq

/-- `ChatCompletionChunk`: the translated output wire unit.  `created` holds
the abstracted `SystemTime::now()` value. -/
structure ChatCompletionChunk where
  id : List Nat
  object : List Nat
  created : Nat
  model : List Nat
  choices : List Choice
deriving DecidableEq

/-- serde_json deserialization of the three JSON-bearing event payloads,
abstracted as parser functions (`safe_json_parse` at each payload type:
`some` = `Ok(parsed)`, `none` = parse error, logged and dropped). -/
structure JsonParsers where
  parseAction : List Nat → Option DevAction
  parseSources : List Nat → Option (List DevSource)
  parseRepoSources : List Nat → Option (List DevGithubSource)

/-- The parsed-line alternatives of `enum SseLine`. -/
inductive SseLine where
  | event (v : List Nat) : SseLine
  | data (v : List Nat) : SseLine
  | retryLine (v : List Nat) : SseLine
  | idLine (v : List Nat) : SseLine
  | comment : SseLine
  | empty : SseLine
deriving DecidableEq

/-- `parse_sse_line`: classify a single SSE line. -/
def parse_sse_line (line : List Nat) : SseLine :=
  if line = [] then .empty
  else if line.head? = some 58 then .comment
  else
    let fv := (splitOnce 58 line).getD (line, [])
    let value := stripOneSpace fv.2
    if fv.1 = strLit "event" then .event value
    else if fv.1 = strLit "data" then .data value
    else if fv.1 = strLit "id" then .idLine value
    else if fv.1 = strLit "retry" then .retryLine value
    else .comment

/-- `create_content_chunk`. -/
def create_content_chunk (id model content : List Nat) (now : Nat) :
    ChatCompletionChunk :=
  ⟨id, strLit "chat.completion.chunk", now, model,
    [⟨0, ⟨some (strLit "assistant"), some content⟩, none⟩]⟩

/-- `create_final_chunk`. -/
def create_final_chunk (id model finish_reason : List Nat) (now : Nat) :
    ChatCompletionChunk :=
  ⟨id, strLit "chat.completion.chunk", now, model,
    [⟨0, ⟨none, none⟩, some finish_reason⟩]⟩

/-- `create_error_chunk`. -/
def create_error_chunk (id model error_message : List Nat) (now : Nat) :
    ChatCompletionChunk :=
  ⟨id, strLit "chat.completion.chunk", now, model,
    [⟨0, ⟨some (strLit "assistant"),
          some (strLit "[STREAM_ERROR]: " ++ error_message)⟩,
      some (strLit "stop")⟩]⟩

/-- The arms of the `match event_name.as_str()` dispatch in
`process_single_dev_event`. -/
inductive EventKind where
  | contentKind | actionKind | sourcesKind | repoSourcesKind | rlqKind
  | reasoningKind | threadIdKind | queryMessageIdKind | answerMessageIdKind
  | threadTitleKind | errorKind | finishKind | otherKind
deriving DecidableEq

/-- Classification of an event name by the string patterns of the Rust
`match` (in source order; `"message" | "content" | "c"` and `"rlq" | "q"`
are the two multi-pattern arms, `_` is `otherKind`). -/
def eventKind (event_name : List Nat) : EventKind :=
  if event_name = strLit "message" ∨ event_name = strLit "content" ∨
      event_name = strLit "c" then .contentKind
  else if event_name = strLit "action" then .actionKind
  else if event_name = strLit "sources" then .sourcesKind
  else if event_name = strLit "repoSources" then .repoSourcesKind
  else if event_name = strLit "rlq" ∨ event_name = strLit "q" then .rlqKind
  else if event_name = strLit "r" then .reasoningKind
  else if event_name = strLit "threadId" then .threadIdKind
  else if event_name = strLit "queryMessageId" then .queryMessageIdKind
  else if event_name = strLit "answerMessageId" then .answerMessageIdKind
  else if event_name = strLit "threadTitle" then .threadTitleKind
  else if event_name = strLit "error" then .errorKind
  else if event_name = strLit "finish" then .finishKind
  else .otherKind

/-- `process_single_dev_event`: dispatch one completed `(event_name, data)`
pair against the accumulator, returning the optional chunk and the updated
accumulator. -/
def process_single_dev_event (P : JsonParsers) (acc : SseAccumulator)
    (event_name data request_id model_name : List Nat) (now : Nat) :
    Option ChatCompletionChunk × SseAccumulator :=
  match eventKind event_name with
  | .contentKind =>
    if data = [] then (none, acc)
    else (some (create_content_chunk request_id model_name data now),
          { acc with text := acc.text ++ data })
  | .actionKind =>
    match P.parseAction data with
    | some a => (none, { acc with actions := acc.actions ++ [a] })
    | none => (none, acc)
  | .sourcesKind =>
    match P.parseSources data with
    | some s => (none, { acc with sources := s })
    | none => (none, acc)
  | .repoSourcesKind =>
    match P.parseRepoSources data with
    | some gs => (none, { acc with github_sources := gs })
    | none => (none, acc)
  | .rlqKind =>
    if data ≠ [] then
      (none, { acc with related_questions_raw :=
                 acc.related_questions_raw ++ [10] ++ rustTrim data })
    else (none, acc)
  | .reasoningKind =>
    (none, { acc with reasoning := some ((acc.reasoning.getD []) ++ data) })
  | .threadIdKind =>
    (none, { acc with thread_id := some data })
  | .queryMessageIdKind =>
    (none, { acc with query_message_id := some data })
  | .answerMessageIdKind =>
    (none, { acc with answer_message_id := some data })
  | .threadTitleKind =>
    (none, { acc with thread_title := some data })
  | .errorKind =>
    (some (create_error_chunk request_id model_name data now),
     { acc with error := some data, is_finished := true })
  | .finishKind =>
    (none, acc)
  | .otherKind =>
    (none, acc)

/-! ## The unfold-based stream transducer -/

/-- `DevRequestOptions` from `dev_client.rs`. -/
structure DevRequestOptions where
  sid : Option (List Nat)
  model : Option (List Nat)
  search_mode : Option (List Nat)
  is_expert : Option Bool
  language : Option (List Nat)
  thread_id : Option (List Nat)
  plugin_action : Option (List Nat)
  programming_language : Option (List Nat)

/-- One item of the upstream byte stream: `Ok(Bytes)` or a transport error
(carrying the display text of the `reqwest::Error`). -/
inductive StreamItem where
  | ok (bytes : List Nat) : StreamItem
  | fault (msg : List Nat) : StreamItem

/-- `struct State` of `process_dev_bytes_stream_unfold` (without the pinned
byte stream, which is passed separately, plus the tick counter abstracting
`SystemTime::now()`). -/
structure StreamState where
  decoder_buffer : List Nat
  accumulator : SseAccumulator
  current_event_name : List Nat
  current_data_buffer : List (List Nat)
  model_name : List Nat
  request_id : List Nat
  final_chunk_sent : Bool
  tick : Nat

/-- One iteration of the buffered-line `while` loop: handle a single
complete line.  Mirrors the `match parse_sse_line(line)` block, including
the `break`-without-reset when a chunk is produced. -/
def handleLine (P : JsonParsers) (clock : Nat → Nat) (st : StreamState)
    (line : List Nat) : Option ChatCompletionChunk × StreamState :=
  match parse_sse_line line with
  | .event name => (none, { st with current_event_name := name })
  | .data d =>
      (none, { st with current_data_buffer := st.current_data_buffer ++ [d] })
  | .empty =>
      if st.current_data_buffer = [] then
        (none, { st with current_event_name := strLit "message" })
      else
        let r := process_single_dev_event P st.accumulator
          st.current_event_name (joinNl st.current_data_buffer)
          st.request_id st.model_name (clock st.tick)
        match r.1 with
        | some c =>
            (some c, { st with accumulator := r.2, tick := st.tick + 1,
                               current_data_buffer := [] })
        | none =>
            (none, { st with accumulator := r.2, tick := st.tick + 1,
                             current_data_buffer := [],
                             current_event_name := strLit "message" })
  | _ => (none, st)

theorem handleLine_decoder_buffer (P : JsonParsers) (clock : Nat → Nat)
    (st : StreamState) (line : List Nat) :
    ((handleLine P clock st line).2).decoder_buffer = st.decoder_buffer := by
  unfold handleLine
  rcases parse_sse_line line with v | v | v | v | _ | _ <;> simp
  split
  · simp
  · split <;> simp

/-- Run the buffered-line `while` loop body over a list of already-split
complete lines, collecting the chunks produced (in the Rust unfold each
chunk is yielded via `break` and the loop re-entered on the next pull with
identical state, so the collected sequence is the emitted sequence). -/
def runLines (P : JsonParsers) (clock : Nat → Nat) (st : StreamState) :
    List (List Nat) → List ChatCompletionChunk × StreamState
  | [] => ([], st)
  | line :: ls =>
    let r := handleLine P clock st (trimEndMatches 13 (trimEndMatches 10 line))
    let rest := runLines P clock r.2 ls
    (r.1.toList ++ rest.1, rest.2)

/-- The buffered-line `while` loop, run to completion: the successive
`find('\n')` / `drain(..=newline_pos)` steps of the Rust loop take exactly
the complete lines off the front of the buffer (the state mutated by
`handleLine` never includes the buffer), so the loop equals decomposing the
buffer into complete lines plus the remaining partial text and folding
`handleLine` over the lines. -/
def drainLines (P : JsonParsers) (clock : Nat → Nat) (st : StreamState) :
    List ChatCompletionChunk × StreamState :=
  runLines P clock
    { st with decoder_buffer := (completeLines st.decoder_buffer).2 }
    (completeLines st.decoder_buffer).1

/-- One line of the residual processing at source exhaustion: in the `None`
arm of the unfold only `event:` and `data:` lines take effect. -/
def residualStep (s : StreamState) (line : List Nat) : StreamState :=
  match parse_sse_line line with
  | .event name => { s with current_event_name := name }
  | .data d => { s with current_data_buffer := s.current_data_buffer ++ [d] }
  | _ => s

/-- The residual processing at source exhaustion (`None` arm): run the
remaining partial text through `str::lines()` (only `event:` and `data:`
lines take effect), then dispatch a final pending event for its accumulator
side effects only, discarding its would-be chunk; finally clear the buffer. -/
def residualProcess (P : JsonParsers) (clock : Nat → Nat) (st : StreamState) :
    StreamState :=
  if st.decoder_buffer = [] then st
  else
    let st := (rustLines st.decoder_buffer).foldl residualStep st
    let st :=
      if st.current_data_buffer = [] then st
      else
        let r := process_single_dev_event P st.accumulator
          st.current_event_name (joinNl st.current_data_buffer)
          st.request_id st.model_name (clock st.tick)
        { st with accumulator := r.2, tick := st.tick + 1 }
    { st with decoder_buffer := [] }

/-- The full unfold loop, driven by the list of upstream items: the sequence
of chunks the consumer observes, together with the final state.  Mirrors
`stream::unfold`: a pull first drains buffered complete lines (yielding
their chunks), then awaits the next upstream item; a decode or transport
fault yields one error chunk and sets `final_chunk_sent` (so the next pull
terminates); exhaustion runs residual processing and yields the terminal
chunk unless the accumulator is already finished. -/
def runStream (P : JsonParsers) (clock : Nat → Nat)
    (utf8ErrMsg : List Nat → List Nat) (st : StreamState) :
    List StreamItem → List ChatCompletionChunk × StreamState
  | .ok bytes :: rest =>
    if st.final_chunk_sent then ([], st)
    else
      let d := drainLines P clock st
      let st1 := d.2
      match utf8DecodeCp bytes with
      | some text =>
          let r := runStream P clock utf8ErrMsg
            { st1 with decoder_buffer := st1.decoder_buffer ++ text } rest
          (d.1 ++ r.1, r.2)
      | none =>
          let c := create_error_chunk st1.request_id st1.model_name
            (strLit "UTF-8 decode error: " ++ utf8ErrMsg bytes) (clock st1.tick)
          (d.1 ++ [c],
           { st1 with final_chunk_sent := true, tick := st1.tick + 1 })
  | .fault msg :: _ =>
    if st.final_chunk_sent then ([], st)
    else
      let d := drainLines P clock st
      let st1 := d.2
      let c := create_error_chunk st1.request_id st1.model_name
        (strLit "Stream error: " ++ msg) (clock st1.tick)
      (d.1 ++ [c],
       { st1 with final_chunk_sent := true, tick := st1.tick + 1 })
  | [] =>
    if st.final_chunk_sent then ([], st)
    else
      let d := drainLines P clock st
      let st2 := residualProcess P clock d.2
      if st2.accumulator.is_finished then
        (d.1, { st2 with final_chunk_sent := true })
      else
        let acc := ({ st2.accumulator with is_finished := true
                    } : SseAccumulator).update_related_questions
        let c := create_final_chunk st2.request_id st2.model_name
          (strLit "stop") (clock st2.tick)
        (d.1 ++ [c],
         { st2 with final_chunk_sent := true, accumulator := acc,
                    tick := st2.tick + 1 })

/-- The initial unfold state. -/
def initState (model_name request_id : List Nat) : StreamState :=
  ⟨[], SseAccumulator.default, strLit "message", [], model_name, request_id,
   false, 0⟩

/-- `process_dev_bytes_stream_unfold`: resolve the model name from the
request options (defaulting to `"unknown-dev-model"`) and run the unfold. -/
def process_dev_bytes_stream_unfold (P : JsonParsers) (clock : Nat → Nat)
    (utf8ErrMsg : List Nat → List Nat) (byte_stream : List StreamItem)
    (options : DevRequestOptions) (request_id : List Nat) :
    List ChatCompletionChunk × StreamState :=
  runStream P clock utf8ErrMsg
    (initState (options.model.getD (strLit "unknown-dev-model")) request_id)
    byte_stream

/-! ## The WASM signing bridge (`wasm_signer.rs`) -/

/-- The exports of the loaded bytecode module visible to the host, over an
abstract module state `S`: the allocator and deallocator, the signing
export, and direct linear-memory access (`Memory::read` / `Memory::write`).
Memory is modelled as total (the in-bounds case of the Rust calls). -/
structure WasmModule (S : Type) where
  malloc : S → Nat → Nat → Nat × S
  free : S → Nat → Nat → Nat → S
  signCall : S → Nat → Nat → Nat → Nat → Nat → Nat → Nat → Nat → Nat → S
  memRead : S → Nat → Nat
  memWrite : S → Nat → List Nat → S

/-- Read `len` consecutive bytes of linear memory starting at `ptr`. -/
def readBytes {S : Type} (M : WasmModule S) (s : S) (ptr len : Nat) : List Nat :=
  (List.range len).map (fun i => M.memRead s (ptr + i))

/-- Little-endian decoding of a 4-byte slice (`i32::from_le_bytes`, as the
unsigned residue modulo `2^32`; the host only compares it against 0 and uses
it as an address, which agree with the signed view for in-range values). -/
def leDecode4 (bs : List Nat) : Nat :=
  match bs with
  | [b0, b1, b2, b3] => b0 + 256 * b1 + 65536 * b2 + 16777216 * b3
  | _ => 0

/-- Little-endian encoding of a 32-bit value. -/
def le32 (n : Nat) : List Nat :=
  [n % 256, n / 256 % 256, n / 65536 % 256, n / 16777216 % 256]

namespace WasmSigner

/-- `WasmSigner::sign`, the full marshaling protocol of `wasm_signer.rs`
lines 136–250, over an abstract module.  Inputs and the result are UTF-8
byte strings (`List Nat`).  The returned state is the module state when the
function returns (Rust keeps the store across the early `?` returns), and
the `Except` mirrors the `Result<String>`: each `?` early-return is an
`Except.error` carrying the corresponding message. -/
def sign {S : Type} (M : WasmModule S) (s : S)
    (nonce timestamp device_id query : List Nat) :
    Except (List Nat) (List Nat) × S :=
  let m0 := M.malloc s 8 4
  let ret_ptr_ptr := m0.1
  let s := m0.2
  if ret_ptr_ptr = 0 then
    (.error (strLit "WASM malloc failed for return pointer (returned 0)"), s)
  else
    let write_string := fun (s : S) (bytes : List Nat) =>
      let m := M.malloc s bytes.length 1
      if m.1 = 0 then
        (Except.error (strLit "WASM malloc failed for string (returned 0)"),
         m.2)
      else
        ((Except.ok (m.1, bytes.length) : Except (List Nat) (Nat × Nat)),
         M.memWrite m.2 m.1 bytes)
    match write_string s nonce with
    | (.error e, s) => (.error e, s)
    | (.ok (nonce_ptr, nonce_len), s) =>
    match write_string s timestamp with
    | (.error e, s) => (.error e, s)
    | (.ok (timestamp_ptr, timestamp_len), s) =>
    match write_string s device_id with
    | (.error e, s) => (.error e, s)
    | (.ok (device_id_ptr, device_id_len), s) =>
    match write_string s query with
    | (.error e, s) => (.error e, s)
    | (.ok (query_ptr, query_len), s) =>
    let s := M.signCall s ret_ptr_ptr nonce_ptr nonce_len timestamp_ptr
      timestamp_len device_id_ptr device_id_len query_ptr query_len
    let ret_buf := readBytes M s ret_ptr_ptr 8
    let result_ptr := leDecode4 (ret_buf.take 4)
    let result_len := leDecode4 (ret_buf.drop 4)
    let read_string : Except (List Nat) (List Nat) :=
      if result_len = 0 then .ok []
      else
        let buffer := readBytes M s result_ptr result_len
        match utf8DecodeCp buffer with
        | some _ => .ok buffer
        | none =>
          .error (strLit "Failed to decode UTF-8 result string from WASM")
    match read_string with
    | .error e => (.error e, s)
    | .ok result_string =>
      let s := M.free s nonce_ptr nonce_len 1
      let s := M.free s timestamp_ptr timestamp_len 1
      let s := M.free s device_id_ptr device_id_len 1
      let s := M.free s query_ptr query_len 1
      let s := M.free s ret_ptr_ptr 8 4
      let s := if result_ptr ≠ 0 then M.free s result_ptr result_len 1 else s
      (.ok result_string, s)

end WasmSigner

/-- Instrument a module with an allocation ledger: `malloc` records every
non-null allocation `(ptr, size, align)`, `free` discharges the first
matching record.  The outstanding records after a `sign` call are exactly
the module-memory allocations that call failed to deallocate. -/
def ledgered {S : Type} (M : WasmModule S) :
    WasmModule (S × List (Nat × Nat × Nat)) where
  malloc := fun s size align =>
    let m := M.malloc s.1 size align
    (m.1, (m.2, if m.1 = 0 then s.2 else (m.1, size, align) :: s.2))
  free := fun s ptr size align =>
    (M.free s.1 ptr size align,
     (s.2.eraseP (fun e => e == (ptr, size, align))))
  signCall := fun s r a b c d e f g h =>
    (M.signCall s.1 r a b c d e f g h, s.2)
  memRead := fun s a => M.memRead s.1 a
  memWrite := fun s p bs => (M.memWrite s.1 p bs, s.2)

/-- Pointwise update of a memory function with a byte list at `ptr`. -/
def writeMem (m : Nat → Nat) (ptr : Nat) (bs : List Nat) : Nat → Nat :=
  fun a => if ptr ≤ a ∧ a < ptr + bs.length then bs.getD (a - ptr) 0 else m a

/-- Read `len` consecutive bytes of a memory function starting at `ptr`. -/
def readRange (m : Nat → Nat) (ptr len : Nat) : List Nat :=
  (List.range len).map (fun i => m (ptr + i))

/-- State of the spec-modelled signing module: its linear memory and the
bump-allocation frontier. -/
structure SpecModState where
  mem : Nat → Nat
  next : Nat

/-- Modelled from the spec: the signing bytecode module (`sign_bg.wasm`,
embedded via `include_bytes` and not part of the sources) per §4.1/§6 —
a deterministic module computing a pure signature `sigFn` of the four input
byte strings and holding no mutable state that influences results.  Its
allocator is a bump allocator over fresh memory (alignment is abstracted
away: any allocator satisfies the spec's interface); its signing export
reads the four `(ptr, len)` strings from linear memory, writes the signature
bytes to a fresh region, and stores the little-endian `(result_ptr,
result_len)` descriptor at the descriptor slot. -/
def specModule (sigFn : List Nat → List Nat → List Nat → List Nat → List Nat) :
    WasmModule SpecModState where
  malloc := fun s size _ => (s.next, { s with next := s.next + size })
  free := fun s _ _ _ => s
  signCall := fun s ret np nl tp tl dp dl qp ql =>
    let sig := sigFn (readRange s.mem np nl) (readRange s.mem tp tl)
      (readRange s.mem dp dl) (readRange s.mem qp ql)
    let rp := s.next
    let s1 : SpecModState := ⟨writeMem s.mem rp sig, rp + sig.length⟩
    { s1 with mem := writeMem s1.mem ret (le32 rp ++ le32 sig.length) }
  memRead := fun s a => s.mem a
  memWrite := fun s p bs => { s with mem := writeMem s.mem p bs }

/-- A module whose allocator succeeds for the first request and returns a
null pointer for the second (out of memory), used to exercise the
`AllocationError` exit path of `sign`.  The state counts allocator calls. -/
def failSecondMalloc : WasmModule Nat where
  malloc := fun s _ _ => (if s = 1 then 0 else 1000 * (s + 1), s + 1)
  free := fun s _ _ _ => s
  signCall := fun s _ _ _ _ _ _ _ _ _ => s
  memRead := fun _ _ => 0
  memWrite := fun s _ _ => s

/-- A module whose signing export returns a one-byte result that is not
valid UTF-8 (the byte `0xFF` at address 9999), used to exercise the
`EncodingError` exit path of step 5 of the protocol. -/
def badUtf8Module : WasmModule SpecModState where
  malloc := fun s size _ => (s.next, { s with next := s.next + size })
  free := fun s _ _ _ => s
  signCall := fun s ret _ _ _ _ _ _ _ _ =>
    let s := { s with mem := writeMem s.mem 9999 [255] }
    { s with mem := writeMem s.mem ret (le32 9999 ++ le32 1) }
  memRead := fun s a => s.mem a
  memWrite := fun s p bs => { s with mem := writeMem s.mem p bs }

/-! ## Shared concrete instantiations for the theorems -/

/-- A parser record on which every JSON parse fails (malformed data). -/
def noParse : JsonParsers := ⟨fun _ => none, fun _ => none, fun _ => none⟩

/-- A trivial rendering of the `Utf8Error` display text. -/
def nilMsg : List Nat → List Nat := fun _ => []

/-! ## Claims about the stream transducer -/

/-- C4: the stream `"event: content\ndata: hello\n\n"` followed by source
exhaustion emits exactly two chunks in order: the content chunk for
`"hello"` (no finish reason), then the terminal chunk with an empty delta
(no role, no content) and `finish_reason = "stop"`. -/
theorem content_then_close_two_chunks :
    (runStream noParse id nilMsg (initState (strLit "m") (strLit "req-1"))
        [.ok (strLit "event: content\ndata: hello\n\n")]).1 =
      [create_content_chunk (strLit "req-1") (strLit "m") (strLit "hello") 0,
       create_final_chunk (strLit "req-1") (strLit "m") (strLit "stop") 1] ∧
    (runStream noParse id nilMsg (initState (strLit "m") (strLit "req-1"))
        [.ok (strLit "event: content\ndata: hello\n\n")]).1.map
        (fun c => c.choices.map
          (fun ch => (ch.delta.role, ch.delta.content, ch.finish_reason))) =
      [[(some (strLit "assistant"), some (strLit "hello"), none)],
       [(none, none, some (strLit "stop"))]] := by
  exact ⟨by decide, by decide⟩

/-- C5: the stream `"event: rlq\ndata: Q1\n\nevent: q\ndata: Q2\n\n"`
followed by source exhaustion finalizes the accumulator with the derived
related-questions list `["Q1", "Q2"]` (split the raw string on newlines,
trim, drop empties). -/
theorem rlq_q_related_questions :
    (runStream noParse id nilMsg (initState (strLit "m") (strLit "req-1"))
        [.ok (strLit "event: rlq\ndata: Q1\n\nevent: q\ndata: Q2\n\n")]
      ).2.accumulator.related_questions = [strLit "Q1", strLit "Q2"] ∧
    (runStream noParse id nilMsg (initState (strLit "m") (strLit "req-1"))
        [.ok (strLit "event: rlq\ndata: Q1\n\nevent: q\ndata: Q2\n\n")]
      ).2.accumulator.related_questions_raw = strLit "\nQ1\nQ2" := by
  exact ⟨by decide, by decide⟩

/-- C1 counterexample: after the `error` event `"boom"` is dispatched (and
its error chunk emitted), a further complete `content` event in the same
input still emits a content chunk and still mutates the accumulator's text —
the transducer does not stop at the error event, refuting the claim that no
further chunks are emitted and the accumulator is not mutated again. -/
theorem error_event_then_content_still_emits :
    (runStream noParse id nilMsg (initState (strLit "m") (strLit "req-1"))
        [.ok (strLit "event: error\ndata: boom\n\nevent: content\ndata: hi\n\n")]).1 =
      [create_error_chunk (strLit "req-1") (strLit "m") (strLit "boom") 0,
       create_content_chunk (strLit "req-1") (strLit "m") (strLit "hi") 1] ∧
    (runStream noParse id nilMsg (initState (strLit "m") (strLit "req-1"))
        [.ok (strLit "event: error\ndata: boom\n\nevent: content\ndata: hi\n\n")]
      ).2.accumulator.text = strLit "hi" := by
  exact ⟨by decide, by decide⟩

/-- C1 amended: an `error` event emits exactly one error chunk (its content
contains the event data, `finish_reason = "stop"`), records the error and
marks the accumulator finished, and when the source is then exhausted no
terminal chunk follows — but only absent further complete events, which are
still processed. -/
theorem error_event_sole_chunk_at_close :
    (runStream noParse id nilMsg (initState (strLit "m") (strLit "req-1"))
        [.ok (strLit "event: error\ndata: boom\n\n")]).1 =
      [create_error_chunk (strLit "req-1") (strLit "m") (strLit "boom") 0] ∧
    (runStream noParse id nilMsg (initState (strLit "m") (strLit "req-1"))
        [.ok (strLit "event: error\ndata: boom\n\n")]
      ).2.accumulator.error = some (strLit "boom") ∧
    (runStream noParse id nilMsg (initState (strLit "m") (strLit "req-1"))
        [.ok (strLit "event: error\ndata: boom\n\n")]
      ).2.accumulator.is_finished = true := by
  exact ⟨by decide, by decide, by decide⟩

/-- C3 counterexample: the event name is NOT reset to `"message"` after a
blank line that ends a chunk-emitting event (the Rust loop `break`s to
yield the chunk before the reset): after `"event: error\ndata: x\n\n"` the
pending event name is still `"error"`, and the following data-only event
`"data: y\n\n"` is dispatched as a second `error` event (emitting a second
error chunk and overwriting the stored error) instead of as a `"message"`
content event. -/
theorem event_name_not_reset_after_chunk_emission :
    (drainLines noParse id
        { initState (strLit "m") (strLit "req-1") with
          decoder_buffer := strLit "event: error\ndata: x\n\n" }
      ).2.current_event_name = strLit "error" ∧
    (runStream noParse id nilMsg (initState (strLit "m") (strLit "req-1"))
        [.ok (strLit "event: error\ndata: x\n\ndata: y\n\n")]).1 =
      [create_error_chunk (strLit "req-1") (strLit "m") (strLit "x") 0,
       create_error_chunk (strLit "req-1") (strLit "m") (strLit "y") 1] ∧
    (runStream noParse id nilMsg (initState (strLit "m") (strLit "req-1"))
        [.ok (strLit "event: error\ndata: x\n\ndata: y\n\n")]
      ).2.accumulator.error = some (strLit "y") ∧
    (runStream noParse id nilMsg (initState (strLit "m") (strLit "req-1"))
        [.ok (strLit "event: error\ndata: x\n\ndata: y\n\n")]
      ).2.accumulator.text = [] := by
  exact ⟨by decide, by decide, by decide, by decide⟩

/-- C3 amended: after a blank line the pending event name is reset to
`"message"` exactly when the dispatched event produced no chunk (including
the no-data case); when a chunk is produced, the Rust loop `break`s before
the reset and the event name is left unchanged. -/
theorem event_name_reset_exactly_when_no_chunk
    (P : JsonParsers) (clock : Nat → Nat) (st : StreamState) (line : List Nat)
    (h : parse_sse_line line = .empty) :
    (handleLine P clock st line).2.current_event_name =
      if st.current_data_buffer ≠ [] ∧
          (process_single_dev_event P st.accumulator st.current_event_name
            (joinNl st.current_data_buffer) st.request_id st.model_name
            (clock st.tick)).1.isSome = true
      then st.current_event_name else strLit "message" := by
  unfold handleLine
  rw [h]
  by_cases hd : st.current_data_buffer = []
  · simp [hd]
  · simp only [hd, if_neg hd, ne_eq, not_false_iff, true_and]
    cases hp : (process_single_dev_event P st.accumulator st.current_event_name
        (joinNl st.current_data_buffer) st.request_id st.model_name
        (clock st.tick)).1 with
    | none => simp [hp]
    | some c => simp [hp]

/-- C3 amended, witness at a concrete input: a blank line with an empty
pending data buffer resets the event name to `"message"`. -/
theorem event_name_reset_exactly_when_no_chunk_witness :
    (handleLine noParse id (initState (strLit "m") (strLit "r"))
      []).2.current_event_name = strLit "message" := by
  rw [event_name_reset_exactly_when_no_chunk noParse id
    (initState (strLit "m") (strLit "r")) [] (by decide)]
  decide

/-- C6: a JSON parse failure in the data of an `action`, `sources`, or
`repoSources` event leaves the accumulator unchanged for that event and
emits no chunk (universally in the parser and data), and stream processing
continues: a malformed `action` event followed by a well-formed `content`
event still yields the content chunk and the accumulated text. -/
theorem malformed_json_event_recovered :
    (∀ (P : JsonParsers) (acc : SseAccumulator) (d rid mn : List Nat) (now : Nat),
      P.parseAction d = none →
      process_single_dev_event P acc (strLit "action") d rid mn now = (none, acc)) ∧
    (∀ (P : JsonParsers) (acc : SseAccumulator) (d rid mn : List Nat) (now : Nat),
      P.parseSources d = none →
      process_single_dev_event P acc (strLit "sources") d rid mn now = (none, acc)) ∧
    (∀ (P : JsonParsers) (acc : SseAccumulator) (d rid mn : List Nat) (now : Nat),
      P.parseRepoSources d = none →
      process_single_dev_event P acc (strLit "repoSources") d rid mn now = (none, acc)) ∧
    (runStream noParse id nilMsg (initState (strLit "m") (strLit "req-1"))
        [.ok (strLit "event: action\ndata: notjson\n\nevent: content\ndata: hello\n\n")]).1 =
      [create_content_chunk (strLit "req-1") (strLit "m") (strLit "hello") 1,
       create_final_chunk (strLit "req-1") (strLit "m") (strLit "stop") 2] ∧
    (runStream noParse id nilMsg (initState (strLit "m") (strLit "req-1"))
        [.ok (strLit "event: action\ndata: notjson\n\nevent: content\ndata: hello\n\n")]
      ).2.accumulator.actions.length = 0 ∧
    (runStream noParse id nilMsg (initState (strLit "m") (strLit "req-1"))
        [.ok (strLit "event: action\ndata: notjson\n\nevent: content\ndata: hello\n\n")]
      ).2.accumulator.text = strLit "hello" := by
  refine ⟨?_, ?_, ?_, by decide, by decide, by decide⟩
  · intro P acc d rid mn now h
    unfold process_single_dev_event
    rw [(by decide : eventKind (strLit "action") = EventKind.actionKind), h]
  · intro P acc d rid mn now h
    unfold process_single_dev_event
    rw [(by decide : eventKind (strLit "sources") = EventKind.sourcesKind), h]
  · intro P acc d rid mn now h
    unfold process_single_dev_event
    rw [(by decide : eventKind (strLit "repoSources") = EventKind.repoSourcesKind), h]

/-- C6 witness: the universal parts applied at a concrete malformed input
(the all-failing parser and the data `"notjson"`). -/
theorem malformed_json_event_recovered_witness :
    process_single_dev_event noParse SseAccumulator.default (strLit "action")
        (strLit "notjson") (strLit "req-1") (strLit "m") 0 =
      (none, SseAccumulator.default) ∧
    process_single_dev_event noParse SseAccumulator.default (strLit "sources")
        (strLit "notjson") (strLit "req-1") (strLit "m") 0 =
      (none, SseAccumulator.default) ∧
    process_single_dev_event noParse SseAccumulator.default (strLit "repoSources")
        (strLit "notjson") (strLit "req-1") (strLit "m") 0 =
      (none, SseAccumulator.default) :=
  ⟨malformed_json_event_recovered.1 noParse SseAccumulator.default
      (strLit "notjson") (strLit "req-1") (strLit "m") 0 rfl,
   malformed_json_event_recovered.2.1 noParse SseAccumulator.default
      (strLit "notjson") (strLit "req-1") (strLit "m") 0 rfl,
   malformed_json_event_recovered.2.2.1 noParse SseAccumulator.default
      (strLit "notjson") (strLit "req-1") (strLit "m") 0 rfl⟩

theorem completeLines_no_newline {l : List Nat} (h : 10 ∉ l) :
    completeLines l = ([], l) := by
  induction l with
  | nil => rfl
  | cons x xs ih =>
    have hx : ¬ x = 10 := fun hx => h (by simp [hx])
    have ih' := ih (fun hc => h (List.mem_cons_of_mem _ hc))
    simp [completeLines, hx, ih']

/-- C7: a byte chunk that is not valid UTF-8 on its own, or a read failure
from the byte source, makes the transducer immediately emit exactly one
error chunk and terminate: the remaining items are never consumed, the
buffered partial text is not flushed, and the state is unchanged except for
the termination flag and tick.  Moreover (third and fourth conjuncts),
because each byte chunk is decoded independently, the input that splits the
UTF-8 encoding of `"café"` across two chunks fails with one error chunk even
though its concatenated bytes are valid UTF-8 SSE text — delivered as a
single chunk, the same bytes yield the normal content and stop chunks. -/
theorem transport_and_decode_faults_terminate :
    (∀ (P : JsonParsers) (clock : Nat → Nat) (uem : List Nat → List Nat)
        (st : StreamState) (bytes : List Nat) (rest : List StreamItem),
      st.final_chunk_sent = false →
      (10 : Nat) ∉ st.decoder_buffer →
      utf8DecodeCp bytes = none →
      runStream P clock uem st (.ok bytes :: rest) =
        ([create_error_chunk st.request_id st.model_name
            (strLit "UTF-8 decode error: " ++ uem bytes) (clock st.tick)],
         { st with final_chunk_sent := true, tick := st.tick + 1 })) ∧
    (∀ (P : JsonParsers) (clock : Nat → Nat) (uem : List Nat → List Nat)
        (st : StreamState) (msg : List Nat) (rest : List StreamItem),
      st.final_chunk_sent = false →
      (10 : Nat) ∉ st.decoder_buffer →
      runStream P clock uem st (.fault msg :: rest) =
        ([create_error_chunk st.request_id st.model_name
            (strLit "Stream error: " ++ msg) (clock st.tick)],
         { st with final_chunk_sent := true, tick := st.tick + 1 })) ∧
    utf8DecodeCp ((strLit "data: caf" ++ [195]) ++ ([169] ++ strLit "\n\n")) =
      some (strLit "data: café\n\n") ∧
    (runStream noParse id nilMsg (initState (strLit "m") (strLit "req-1"))
        [.ok (strLit "data: caf" ++ [195]), .ok ([169] ++ strLit "\n\n")]).1 =
      [create_error_chunk (strLit "req-1") (strLit "m")
        (strLit "UTF-8 decode error: ") 0] ∧
    (runStream noParse id nilMsg (initState (strLit "m") (strLit "req-1"))
        [.ok ((strLit "data: caf" ++ [195]) ++ ([169] ++ strLit "\n\n"))]).1 =
      [create_content_chunk (strLit "req-1") (strLit "m") (strLit "café") 0,
       create_final_chunk (strLit "req-1") (strLit "m") (strLit "stop") 1] := by
  refine ⟨?_, ?_, by decide, by decide, by decide⟩
  · intro P clock uem st bytes rest hf hnl hdec
    have hcl := completeLines_no_newline hnl
    unfold runStream
    rw [hf]
    simp only [Bool.false_eq_true, if_false]
    unfold drainLines
    rw [hcl]
    simp only [runLines]
    rw [hdec]
    rfl
  · intro P clock uem st msg rest hf hnl
    have hcl := completeLines_no_newline hnl
    unfold runStream
    rw [hf]
    simp only [Bool.false_eq_true, if_false]
    unfold drainLines
    rw [hcl]
    simp only [runLines]
    rfl

/-- C7 witness: the universal fault clauses applied at concrete inputs — the
lone invalid byte `0xFF`, and a transport fault with message `"boom"`. -/
theorem transport_and_decode_faults_terminate_witness :
    (runStream noParse id nilMsg (initState (strLit "m") (strLit "r"))
        [.ok [255], .fault (strLit "x")]).1 =
      [create_error_chunk (strLit "r") (strLit "m")
        (strLit "UTF-8 decode error: ") 0] ∧
    (runStream noParse id nilMsg (initState (strLit "m") (strLit "r"))
        [.fault (strLit "boom")]).1 =
      [create_error_chunk (strLit "r") (strLit "m")
        (strLit "Stream error: boom") 0] := by
  constructor
  · rw [transport_and_decode_faults_terminate.1 noParse id nilMsg
      (initState (strLit "m") (strLit "r")) [255] [.fault (strLit "x")]
      rfl (by decide) (by decide)]
    decide
  · rw [transport_and_decode_faults_terminate.2.1 noParse id nilMsg
      (initState (strLit "m") (strLit "r")) (strLit "boom") []
      rfl (by decide)]
    decide

/-! ## Emitted-chunk shape invariants -/

theorem psde_chunk_cases (P : JsonParsers) (acc : SseAccumulator)
    (en d rid mn : List Nat) (now : Nat) :
    (process_single_dev_event P acc en d rid mn now).1 = none ∨
    (process_single_dev_event P acc en d rid mn now).1 =
      some (create_content_chunk rid mn d now) ∨
    (process_single_dev_event P acc en d rid mn now).1 =
      some (create_error_chunk rid mn d now) := by
  unfold process_single_dev_event
  cases eventKind en
  case contentKind => by_cases hd : d = [] <;> simp [hd]
  case actionKind => cases P.parseAction d <;> simp
  case sourcesKind => cases P.parseSources d <;> simp
  case repoSourcesKind => cases P.parseRepoSources d <;> simp
  case rlqKind => by_cases hd : d ≠ [] <;> simp [hd]
  all_goals simp

theorem handleLine_model_name (P : JsonParsers) (clock : Nat → Nat)
    (st : StreamState) (line : List Nat) :
    ((handleLine P clock st line).2).model_name = st.model_name := by
  unfold handleLine
  rcases parse_sse_line line with v | v | v | v | _ | _ <;> simp
  split
  · simp
  · split <;> simp

theorem handleLine_request_id (P : JsonParsers) (clock : Nat → Nat)
    (st : StreamState) (line : List Nat) :
    ((handleLine P clock st line).2).request_id = st.request_id := by
  unfold handleLine
  rcases parse_sse_line line with v | v | v | v | _ | _ <;> simp
  split
  · simp
  · split <;> simp

theorem handleLine_chunk (P : JsonParsers) (clock : Nat → Nat)
    (st : StreamState) (line : List Nat) (c : ChatCompletionChunk)
    (h : (handleLine P clock st line).1 = some c) :
    ∃ x now, c = create_content_chunk st.request_id st.model_name x now ∨
             c = create_error_chunk st.request_id st.model_name x now := by
  unfold handleLine at h
  rcases hp : parse_sse_line line with v | v | v | v | _ | _ <;>
    rw [hp] at h <;> try simp at h
  split at h
  · simp at h
  · rcases hc : (process_single_dev_event P st.accumulator
        st.current_event_name (joinNl st.current_data_buffer)
        st.request_id st.model_name (clock st.tick)).1 with _ | c'
    · rw [hc] at h; simp at h
    · rw [hc] at h
      simp only [Option.some.injEq] at h
      subst h
      rcases psde_chunk_cases P st.accumulator st.current_event_name
          (joinNl st.current_data_buffer) st.request_id st.model_name
          (clock st.tick) with h0 | h1 | h2
      · rw [h0] at hc; cases hc
      · rw [h1] at hc
        exact ⟨joinNl st.current_data_buffer, clock st.tick,
          Or.inl (Option.some.inj hc).symm⟩
      · rw [h2] at hc
        exact ⟨joinNl st.current_data_buffer, clock st.tick,
          Or.inr (Option.some.inj hc).symm⟩

theorem runLines_model_name (P : JsonParsers) (clock : Nat → Nat)
    (ls : List (List Nat)) : ∀ st : StreamState,
    ((runLines P clock st ls).2).model_name = st.model_name := by
  induction ls with
  | nil => intro st; rfl
  | cons line ls ih =>
    intro st
    simp only [runLines]
    rw [ih, handleLine_model_name]

theorem runLines_request_id (P : JsonParsers) (clock : Nat → Nat)
    (ls : List (List Nat)) : ∀ st : StreamState,
    ((runLines P clock st ls).2).request_id = st.request_id := by
  induction ls with
  | nil => intro st; rfl
  | cons line ls ih =>
    intro st
    simp only [runLines]
    rw [ih, handleLine_request_id]

theorem runLines_chunks (P : JsonParsers) (clock : Nat → Nat)
    (ls : List (List Nat)) : ∀ (st : StreamState) (c : ChatCompletionChunk),
    c ∈ (runLines P clock st ls).1 →
    ∃ x now, c = create_content_chunk st.request_id st.model_name x now ∨
             c = create_error_chunk st.request_id st.model_name x now := by
  induction ls with
  | nil => intro st c h; simp [runLines] at h
  | cons line ls ih =>
    intro st c h
    simp only [runLines, List.mem_append] at h
    rcases h with h | h
    · rcases hh : (handleLine P clock st
          (trimEndMatches 13 (trimEndMatches 10 line))).1 with _ | c'
      · rw [hh] at h; simp at h
      · rw [hh] at h; simp at h; subst h
        exact handleLine_chunk P clock st _ c hh
    · have := ih (handleLine P clock st
        (trimEndMatches 13 (trimEndMatches 10 line))).2 c h
      rwa [handleLine_model_name, handleLine_request_id] at this

theorem residualStep_model_name (s : StreamState) (line : List Nat) :
    (residualStep s line).model_name = s.model_name := by
  unfold residualStep
  rcases parse_sse_line line with v | v | v | v | _ | _ <;> simp

theorem residualStep_request_id (s : StreamState) (line : List Nat) :
    (residualStep s line).request_id = s.request_id := by
  unfold residualStep
  rcases parse_sse_line line with v | v | v | v | _ | _ <;> simp

theorem foldl_residualStep_model_name (ls : List (List Nat)) :
    ∀ s : StreamState, (ls.foldl residualStep s).model_name = s.model_name := by
  induction ls with
  | nil => intro s; rfl
  | cons line ls ih =>
    intro s
    rw [List.foldl_cons, ih, residualStep_model_name]

theorem foldl_residualStep_request_id (ls : List (List Nat)) :
    ∀ s : StreamState, (ls.foldl residualStep s).request_id = s.request_id := by
  induction ls with
  | nil => intro s; rfl
  | cons line ls ih =>
    intro s
    rw [List.foldl_cons, ih, residualStep_request_id]

theorem residualProcess_model_name (P : JsonParsers) (clock : Nat → Nat)
    (st : StreamState) :
    (residualProcess P clock st).model_name = st.model_name := by
  unfold residualProcess
  split
  · rfl
  · by_cases hd : (List.foldl residualStep st
        (rustLines st.decoder_buffer)).current_data_buffer = [] <;>
      simp [hd, foldl_residualStep_model_name]

theorem residualProcess_request_id (P : JsonParsers) (clock : Nat → Nat)
    (st : StreamState) :
    (residualProcess P clock st).request_id = st.request_id := by
  unfold residualProcess
  split
  · rfl
  · by_cases hd : (List.foldl residualStep st
        (rustLines st.decoder_buffer)).current_data_buffer = [] <;>
      simp [hd, foldl_residualStep_request_id]

theorem drainLines_model_name (P : JsonParsers) (clock : Nat → Nat)
    (st : StreamState) :
    ((drainLines P clock st).2).model_name = st.model_name := by
  unfold drainLines
  rw [runLines_model_name]

theorem drainLines_request_id (P : JsonParsers) (clock : Nat → Nat)
    (st : StreamState) :
    ((drainLines P clock st).2).request_id = st.request_id := by
  unfold drainLines
  rw [runLines_request_id]

theorem drainLines_chunks (P : JsonParsers) (clock : Nat → Nat)
    (st : StreamState) (c : ChatCompletionChunk)
    (h : c ∈ (drainLines P clock st).1) :
    ∃ x now, c = create_content_chunk st.request_id st.model_name x now ∨
             c = create_error_chunk st.request_id st.model_name x now := by
  unfold drainLines at h
  exact runLines_chunks P clock (completeLines st.decoder_buffer).1
    { st with decoder_buffer := (completeLines st.decoder_buffer).2 } c h

theorem runStream_chunks (P : JsonParsers) (clock : Nat → Nat)
    (uem : List Nat → List Nat) (items : List StreamItem) :
    ∀ (st : StreamState) (c : ChatCompletionChunk),
    c ∈ (runStream P clock uem st items).1 →
    ∃ x now, c = create_content_chunk st.request_id st.model_name x now ∨
             c = create_error_chunk st.request_id st.model_name x now ∨
             c = create_final_chunk st.request_id st.model_name
               (strLit "stop") now := by
  induction items with
  | nil =>
    intro st c h
    unfold runStream at h
    by_cases hf : st.final_chunk_sent = true
    · simp [hf] at h
    · simp only [hf, Bool.false_eq_true, if_false] at h
      by_cases hfin : (residualProcess P clock
          (drainLines P clock st).2).accumulator.is_finished = true
      · rw [if_pos hfin] at h
        rcases drainLines_chunks P clock st c h with ⟨x, now, h1 | h2⟩
        · exact ⟨x, now, Or.inl h1⟩
        · exact ⟨x, now, Or.inr (Or.inl h2)⟩
      · rw [if_neg hfin] at h
        simp only [List.mem_append, List.mem_singleton] at h
        rcases h with h | h
        · rcases drainLines_chunks P clock st c h with ⟨x, now, h1 | h2⟩
          · exact ⟨x, now, Or.inl h1⟩
          · exact ⟨x, now, Or.inr (Or.inl h2)⟩
        · subst h
          refine ⟨[], clock (residualProcess P clock
            (drainLines P clock st).2).tick, Or.inr (Or.inr ?_)⟩
          rw [residualProcess_model_name, residualProcess_request_id,
            drainLines_model_name, drainLines_request_id]
  | cons item rest ih =>
    intro st c h
    cases item with
    | ok bytes =>
      unfold runStream at h
      by_cases hf : st.final_chunk_sent = true
      · simp [hf] at h
      · rw [if_neg hf] at h
        rcases hdec : utf8DecodeCp bytes with _ | text <;> rw [hdec] at h
        · simp only [List.mem_append, List.mem_singleton] at h
          rcases h with h | h
          · rcases drainLines_chunks P clock st c h with ⟨x, now, h1 | h2⟩
            · exact ⟨x, now, Or.inl h1⟩
            · exact ⟨x, now, Or.inr (Or.inl h2)⟩
          · subst h
            refine ⟨strLit "UTF-8 decode error: " ++ uem bytes,
              clock (drainLines P clock st).2.tick, Or.inr (Or.inl ?_)⟩
            rw [drainLines_model_name, drainLines_request_id]
        · simp only [List.mem_append] at h
          rcases h with h | h
          · rcases drainLines_chunks P clock st c h with ⟨x, now, h1 | h2⟩
            · exact ⟨x, now, Or.inl h1⟩
            · exact ⟨x, now, Or.inr (Or.inl h2)⟩
          · have := ih _ c h
            simp only at this
            rwa [drainLines_model_name, drainLines_request_id] at this
    | fault msg =>
      unfold runStream at h
      by_cases hf : st.final_chunk_sent = true
      · simp [hf] at h
      · rw [if_neg hf] at h
        simp only [List.mem_append, List.mem_singleton] at h
        rcases h with h | h
        · rcases drainLines_chunks P clock st c h with ⟨x, now, h1 | h2⟩
          · exact ⟨x, now, Or.inl h1⟩
          · exact ⟨x, now, Or.inr (Or.inl h2)⟩
        · subst h
          refine ⟨strLit "Stream error: " ++ msg,
            clock (drainLines P clock st).2.tick, Or.inr (Or.inl ?_)⟩
          rw [drainLines_model_name, drainLines_request_id]

/-- Request options with every field absent. -/
def emptyOptions : DevRequestOptions :=
  ⟨none, none, none, none, none, none, none, none⟩

/-- C9: when the request options carry no model name, every chunk the
transducer emits — content, error, and terminal — carries the literal model
name `"unknown-dev-model"`. -/
theorem chunks_model_default_unknown_dev_model
    (P : JsonParsers) (clock : Nat → Nat) (uem : List Nat → List Nat)
    (byte_stream : List StreamItem) (options : DevRequestOptions)
    (request_id : List Nat) (h : options.model = none) :
    ∀ c ∈ (process_dev_bytes_stream_unfold P clock uem byte_stream options
        request_id).1, c.model = strLit "unknown-dev-model" := by
  intro c hc
  unfold process_dev_bytes_stream_unfold at hc
  rw [h] at hc
  rcases runStream_chunks P clock uem byte_stream _ c hc with
    ⟨x, now, rfl | rfl | rfl⟩ <;> rfl

/-- C9 witness: the content chunk emitted for a concrete stream under
model-less options carries `"unknown-dev-model"`. -/
theorem chunks_model_default_unknown_dev_model_witness :
    (create_content_chunk (strLit "r") (strLit "unknown-dev-model")
        (strLit "hi") 0).model = strLit "unknown-dev-model" :=
  chunks_model_default_unknown_dev_model noParse id nilMsg
    [.ok (strLit "event: content\ndata: hi\n\n")] emptyOptions (strLit "r")
    rfl
    (create_content_chunk (strLit "r") (strLit "unknown-dev-model")
      (strLit "hi") 0)
    (by decide)

/-- C10: the three chunk constructors produce exactly the documented
shapes — content chunks carry `role = "assistant"` and the content, error
chunks carry `role = "assistant"` and content `"[STREAM_ERROR]: "` followed
by the error message with `finish_reason = "stop"`, final chunks carry an
empty delta — and every chunk the transducer ever emits has exactly one
choice, of index 0, whose delta is either assistant-with-content or empty
with `finish_reason = "stop"`. -/
theorem chunk_shape_invariants :
    (∀ (id model content : List Nat) (now : Nat),
      (create_content_chunk id model content now).choices =
        [⟨0, ⟨some (strLit "assistant"), some content⟩, none⟩]) ∧
    (∀ (id model msg : List Nat) (now : Nat),
      (create_error_chunk id model msg now).choices =
        [⟨0, ⟨some (strLit "assistant"),
              some (strLit "[STREAM_ERROR]: " ++ msg)⟩,
          some (strLit "stop")⟩]) ∧
    (∀ (id model fr : List Nat) (now : Nat),
      (create_final_chunk id model fr now).choices =
        [⟨0, ⟨none, none⟩, some fr⟩]) ∧
    (∀ (P : JsonParsers) (clock : Nat → Nat) (uem : List Nat → List Nat)
        (st : StreamState) (items : List StreamItem)
        (c : ChatCompletionChunk), c ∈ (runStream P clock uem st items).1 →
      c.choices.length = 1 ∧ ∀ ch ∈ c.choices, ch.index = 0 ∧
        ((ch.delta.role = some (strLit "assistant") ∧
          ch.delta.content.isSome = true) ∨
         (ch.delta.role = none ∧ ch.delta.content = none ∧
          ch.finish_reason = some (strLit "stop")))) := by
  refine ⟨fun i m x now => rfl, fun i m x now => rfl, fun i m x now => rfl, ?_⟩
  intro P clock uem st items c hc
  rcases runStream_chunks P clock uem items st c hc with
    ⟨x, now, rfl | rfl | rfl⟩
  · refine ⟨rfl, ?_⟩
    intro ch hch
    simp only [create_content_chunk, List.mem_singleton] at hch
    subst hch
    exact ⟨rfl, Or.inl ⟨rfl, rfl⟩⟩
  · refine ⟨rfl, ?_⟩
    intro ch hch
    simp only [create_error_chunk, List.mem_singleton] at hch
    subst hch
    exact ⟨rfl, Or.inl ⟨rfl, rfl⟩⟩
  · refine ⟨rfl, ?_⟩
    intro ch hch
    simp only [create_final_chunk, List.mem_singleton] at hch
    subst hch
    exact ⟨rfl, Or.inr ⟨rfl, rfl, rfl⟩⟩

/-- C10 witness: the emitted-chunk clause applied to a concrete emitted
content chunk. -/
theorem chunk_shape_invariants_witness :
    (create_content_chunk (strLit "r") (strLit "m") (strLit "hi") 0
      ).choices.length = 1 :=
  (chunk_shape_invariants.2.2.2 noParse id nilMsg
    (initState (strLit "m") (strLit "r"))
    [.ok (strLit "event: content\ndata: hi\n\n")]
    (create_content_chunk (strLit "r") (strLit "m") (strLit "hi") 0)
    (by decide)).1

/-! ## Claims about the signing bridge -/

/-- C2 (refuted by the code): `sign` does not deallocate on every exit
path.  With a module whose second allocation fails (returning 0), `sign`
returns the `AllocationError` but leaves the already-allocated 8-byte
descriptor outstanding in the allocation ledger; with a module whose
signing export returns a non-UTF-8 result, step 5 fails and all five
allocations made by the call (four input buffers and the descriptor) are
left outstanding.  Only the success path (last conjunct) frees everything:
the early `?` returns of `wasm_signer.rs` skip the deallocation block. -/
theorem sign_leaks_allocations_on_error_paths :
    ((WasmSigner.sign (ledgered failSecondMalloc) (0, [])
        (strLit "n") (strLit "t") (strLit "d") (strLit "q")).1 =
      Except.error (strLit "WASM malloc failed for string (returned 0)")) ∧
    ((WasmSigner.sign (ledgered failSecondMalloc) (0, [])
        (strLit "n") (strLit "t") (strLit "d") (strLit "q")).2.2 =
      [(1000, 8, 4)]) ∧
    ((WasmSigner.sign (ledgered badUtf8Module) (⟨fun _ => 0, 8⟩, [])
        (strLit "n") (strLit "t") (strLit "d") (strLit "q")).1 =
      Except.error (strLit "Failed to decode UTF-8 result string from WASM")) ∧
    ((WasmSigner.sign (ledgered badUtf8Module) (⟨fun _ => 0, 8⟩, [])
        (strLit "n") (strLit "t") (strLit "d") (strLit "q")).2.2 =
      [(19, 1, 1), (18, 1, 1), (17, 1, 1), (16, 1, 1), (8, 8, 4)]) ∧
    ((WasmSigner.sign
        (ledgered (specModule (fun n t d q => n ++ t ++ d ++ q)))
        (⟨fun _ => 0, 8⟩, [])
        (strLit "n") (strLit "t") (strLit "d") (strLit "q")).2.2 = []) := by
  exact ⟨rfl, by decide, rfl, by decide, by decide⟩

/-! ## Marshaling correctness of `sign` over the spec-modelled module -/

theorem readRange_congr {m m' : Nat → Nat} {p len : Nat}
    (h : ∀ a, p ≤ a → a < p + len → m a = m' a) :
    readRange m p len = readRange m' p len := by
  apply List.ext_getElem (by simp [readRange])
  intro i h1 h2
  simp only [readRange, List.getElem_map, List.getElem_range]
  exact h (p + i) (by omega) (by simp [readRange] at h1; omega)

theorem readRange_writeMem_of_disjoint {m : Nat → Nat} {pw : Nat}
    {bs : List Nat} {p len : Nat}
    (h : p + len ≤ pw ∨ pw + bs.length ≤ p) :
    readRange (writeMem m pw bs) p len = readRange m p len := by
  apply readRange_congr
  intro a ha1 ha2
  unfold writeMem
  rw [if_neg]
  omega

theorem readRange_writeMem_self (m : Nat → Nat) (p : Nat) (bs : List Nat) :
    readRange (writeMem m p bs) p bs.length = bs := by
  apply List.ext_getElem (by simp [readRange])
  intro i h1 h2
  simp only [readRange, List.getElem_map, List.getElem_range]
  unfold writeMem
  rw [if_pos (by omega)]
  have hi : p + i - p = i := by omega
  rw [hi]
  exact List.getD_eq_getElem bs 0 h2

theorem leDecode4_le32 {x : Nat} (h : x < 4294967296) :
    leDecode4 (le32 x) = x := by
  show x % 256 + 256 * (x / 256 % 256) + 65536 * (x / 65536 % 256) +
    16777216 * (x / 16777216 % 256) = x
  omega

theorem readRange_eq (m : Nat → Nat) (p l : Nat) :
    (List.range l).map (fun i => m (p + i)) = readRange m p l := rfl

theorem readRange_writeMem_le32pair (m : Nat → Nat) (p a b : Nat) :
    readRange (writeMem m p (le32 a ++ le32 b)) p 8 = le32 a ++ le32 b := by
  have h : (le32 a ++ le32 b).length = 8 := by simp [le32]
  conv_lhs => rw [show (8 : Nat) = (le32 a ++ le32 b).length from h.symm]
  exact readRange_writeMem_self m p _

theorem le32pair_take (a b : Nat) : (le32 a ++ le32 b).take 4 = le32 a := rfl

theorem le32pair_drop (a b : Nat) : (le32 a ++ le32 b).drop 4 = le32 b := rfl

set_option maxHeartbeats 1000000 in
theorem specModule_sign_eq
    (sigFn : List Nat → List Nat → List Nat → List Nat → List Nat)
    (mem : Nat → Nat) (next : Nat) (n t d q : List Nat)
    (h1 : 1 ≤ next)
    (h2 : next + 8 + n.length + t.length + d.length + q.length +
      (sigFn n t d q).length < 4294967296)
    (h3 : (utf8DecodeCp (sigFn n t d q)).isSome = true) :
    (WasmSigner.sign (specModule sigFn) ⟨mem, next⟩ n t d q).1 =
      Except.ok (sigFn n t d q) ∧
    (WasmSigner.sign (specModule sigFn) ⟨mem, next⟩ n t d q).2.next =
      next + 8 + n.length + t.length + d.length + q.length +
        (sigFn n t d q).length := by
  have e0 : ¬ (next = 0) := by omega
  have e1 : ¬ (next + 8 = 0) := by omega
  have e2 : ¬ (next + 8 + n.length = 0) := by omega
  have e3 : ¬ (next + 8 + n.length + t.length = 0) := by omega
  have e4 : ¬ (next + 8 + n.length + t.length + d.length = 0) := by omega
  unfold WasmSigner.sign
  simp only [specModule, e0, e1, e2, e3, e4, if_false, ite_false]
  have hm4n : readRange (writeMem (writeMem (writeMem (writeMem mem
      (next + 8) n) (next + 8 + n.length) t)
      (next + 8 + n.length + t.length) d)
      (next + 8 + n.length + t.length + d.length) q)
      (next + 8) n.length = n := by
    rw [readRange_writeMem_of_disjoint (Or.inl (by omega)),
        readRange_writeMem_of_disjoint (Or.inl (by omega)),
        readRange_writeMem_of_disjoint (Or.inl (by omega)),
        readRange_writeMem_self]
  have hm4t : readRange (writeMem (writeMem (writeMem (writeMem mem
      (next + 8) n) (next + 8 + n.length) t)
      (next + 8 + n.length + t.length) d)
      (next + 8 + n.length + t.length + d.length) q)
      (next + 8 + n.length) t.length = t := by
    rw [readRange_writeMem_of_disjoint (Or.inl (by omega)),
        readRange_writeMem_of_disjoint (Or.inl (by omega)),
        readRange_writeMem_self]
  have hm4d : readRange (writeMem (writeMem (writeMem (writeMem mem
      (next + 8) n) (next + 8 + n.length) t)
      (next + 8 + n.length + t.length) d)
      (next + 8 + n.length + t.length + d.length) q)
      (next + 8 + n.length + t.length) d.length = d := by
    rw [readRange_writeMem_of_disjoint (Or.inl (by omega)),
        readRange_writeMem_self]
  have hm4q : readRange (writeMem (writeMem (writeMem (writeMem mem
      (next + 8) n) (next + 8 + n.length) t)
      (next + 8 + n.length + t.length) d)
      (next + 8 + n.length + t.length + d.length) q)
      (next + 8 + n.length + t.length + d.length) q.length = q := by
    rw [readRange_writeMem_self]
  rw [hm4n, hm4t, hm4d, hm4q]
  simp only [readBytes, readRange_eq]
  have hdp : leDecode4 (le32 (next + 8 + n.length + t.length + d.length +
      q.length)) = next + 8 + n.length + t.length + d.length + q.length :=
    leDecode4_le32 (by omega)
  have hdl : leDecode4 (le32 (sigFn n t d q).length) =
      (sigFn n t d q).length := leDecode4_le32 (by omega)
  have hres : readRange (writeMem (writeMem (writeMem (writeMem (writeMem
      (writeMem mem (next + 8) n) (next + 8 + n.length) t)
      (next + 8 + n.length + t.length) d)
      (next + 8 + n.length + t.length + d.length) q)
      (next + 8 + n.length + t.length + d.length + q.length) (sigFn n t d q))
      next
      (le32 (next + 8 + n.length + t.length + d.length + q.length) ++
        le32 (sigFn n t d q).length))
      (next + 8 + n.length + t.length + d.length + q.length)
      (sigFn n t d q).length = sigFn n t d q := by
    rw [readRange_writeMem_of_disjoint (Or.inr (by simp [le32]; omega)),
        readRange_writeMem_self]
  simp only [readRange_writeMem_le32pair, le32pair_take, le32pair_drop,
    hdp, hdl, hres]
  by_cases hS : (sigFn n t d q).length = 0
  · rw [if_pos hS]
    simp only [ite_self]
    constructor
    · show Except.ok [] = Except.ok (sigFn n t d q)
      rw [List.length_eq_zero.mp hS]
    · trivial
  · rw [if_neg hS]
    obtain ⟨y, hy⟩ := Option.isSome_iff_exists.mp h3
    rw [hy]
    simp only [ite_self]
    exact ⟨trivial, trivial⟩

/-- C8: `sign` is deterministic over the spec-modelled module: for every
pure signature function and every pair of module states (and the state left
by a first call), a successful call returns exactly the signature of the
four inputs, so any two calls with identical inputs — including a repeated
call after the first one — return the same string.  The bound hypotheses
keep the bump allocator inside the 32-bit descriptor range. -/
theorem sign_deterministic
    (sigFn : List Nat → List Nat → List Nat → List Nat → List Nat)
    (mem1 mem2 : Nat → Nat) (next1 next2 : Nat) (n t d q : List Nat)
    (h11 : 1 ≤ next1)
    (h12 : next1 + 2 * (8 + n.length + t.length + d.length + q.length +
      (sigFn n t d q).length) < 4294967296)
    (h21 : 1 ≤ next2)
    (h22 : next2 + 8 + n.length + t.length + d.length + q.length +
      (sigFn n t d q).length < 4294967296)
    (h3 : (utf8DecodeCp (sigFn n t d q)).isSome = true) :
    (WasmSigner.sign (specModule sigFn) ⟨mem1, next1⟩ n t d q).1 =
      (WasmSigner.sign (specModule sigFn) ⟨mem2, next2⟩ n t d q).1 ∧
    (WasmSigner.sign (specModule sigFn) ⟨mem1, next1⟩ n t d q).1 =
      Except.ok (sigFn n t d q) ∧
    (WasmSigner.sign (specModule sigFn)
        (WasmSigner.sign (specModule sigFn) ⟨mem1, next1⟩ n t d q).2
        n t d q).1 =
      (WasmSigner.sign (specModule sigFn) ⟨mem1, next1⟩ n t d q).1 := by
  have A := specModule_sign_eq sigFn mem1 next1 n t d q h11 (by omega) h3
  have B := specModule_sign_eq sigFn mem2 next2 n t d q h21 h22 h3
  rcases hsf : (WasmSigner.sign (specModule sigFn) ⟨mem1, next1⟩
    n t d q).2 with ⟨mf, xf⟩
  have hA2 := A.2
  rw [hsf] at hA2
  simp only at hA2
  have C := specModule_sign_eq sigFn mf xf n t d q (by omega) (by omega) h3
  refine ⟨?_, A.1, ?_⟩
  · rw [A.1, B.1]
  · rw [C.1, A.1]

/-- C8 witness: two calls from different module states (different memory
contents and allocation frontiers) return the same signature. -/
theorem sign_deterministic_witness :
    (WasmSigner.sign (specModule (fun n t d q => n ++ t ++ d ++ q))
        ⟨fun _ => 0, 8⟩ (strLit "n1") (strLit "ts") (strLit "dev")
        (strLit "qq")).1 =
      (WasmSigner.sign (specModule (fun n t d q => n ++ t ++ d ++ q))
        ⟨fun _ => 7, 500⟩ (strLit "n1") (strLit "ts") (strLit "dev")
        (strLit "qq")).1 :=
  (sign_deterministic (fun n t d q => n ++ t ++ d ++ q) (fun _ => 0)
    (fun _ => 7) 8 500 (strLit "n1") (strLit "ts") (strLit "dev")
    (strLit "qq") (by decide) (by decide) (by decide) (by decide)
    (by decide)).1
